import Mathlib

/-!
Verification of the ride-lifecycle FSM and event-generation engine of the
kafka-ride-sharing repository. The definitions below are shallow embeddings
of the Go source: `events/types.go` (event model and JSON envelope),
`producer/main.go` (transition table, FSM, fare, event generation, driver
tick loop) and the persistence sink (`rides_db` insert with the
`ON CONFLICT (trip_id, event_type) DO NOTHING` SQL statement).

Modelling conventions:
* Go's string-based enums `RideState` / `RideEventType` are inductive types
  here; their string values appear via `rideStateStr` / `eventTypeStr` at
  the JSON boundary.
* `float64` values (random draws, distances, fares) are modelled as `ℚ`;
  `math.Round` (round half away from zero) is `goRound`.
* `time.Time` is modelled as `Nat` (an abstract instant).
* Implicit effect inputs of the producer (`time.Now`, `rand.Float64`,
  `uuid.NewString`, `gofakeit`) are passed explicitly in a `GenEnv` record.
* Go's `error` return is `Option ApplyError` (`none` = nil = success), and
  in-place mutation of `FSM` / `Ride` is explicit state passing.
-/

namespace RideShare

/-- `RideState` from events/types.go: string enum of ride states. -/
inductive RideState
  | StateNew
  | StateRequested
  | StateAccepted
  | StateInProgress
  | StateCompleted
  | StateCancelled
deriving DecidableEq, Repr

/-- `RideEventType` from events/types.go: string enum of event types. -/
inductive RideEventType
  | EventRideRequested
  | EventRideAccepted
  | EventTripStarted
  | EventTripCompleted
  | EventTripCancelled
deriving DecidableEq, Repr

/-- The Go string value of each `RideState` constant (events/types.go). -/
def rideStateStr : RideState → String
  | .StateNew => "NEW"
  | .StateRequested => "REQUESTED"
  | .StateAccepted => "ACCEPTED"
  | .StateInProgress => "IN_PROGRESS"
  | .StateCompleted => "COMPLETED"
  | .StateCancelled => "CANCELLED"

/-- The Go string value of each `RideEventType` constant (events/types.go). -/
def eventTypeStr : RideEventType → String
  | .EventRideRequested => "REQUESTED"
  | .EventRideAccepted => "ACCEPTED"
  | .EventTripStarted => "STARTED"
  | .EventTripCompleted => "COMPLETED"
  | .EventTripCancelled => "CANCELLED"

/-- `transitions` from producer/main.go: the outer map from current state to
the map of valid events and resulting states. `none` models absence of the
outer-map key (Go `ok == false`), as for `New`, `Completed`, `Cancelled`. -/
def transitions : RideState → Option (RideEventType → Option RideState)
  | .StateRequested => some fun e =>
      match e with
      | .EventRideAccepted => some .StateAccepted
      | .EventTripCancelled => some .StateCancelled
      | _ => none
  | .StateAccepted => some fun e =>
      match e with
      | .EventTripStarted => some .StateInProgress
      | .EventTripCancelled => some .StateCancelled
      | _ => none
  | .StateInProgress => some fun e =>
      match e with
      | .EventTripCancelled => some .StateCancelled
      | .EventTripCompleted => some .StateCompleted
      | _ => none
  | _ => none

/-- The error taxonomy of `FSM.Apply` (producer/main.go): the
"no transitions defined for state" error and the
"event not valid from state" error. -/
inductive ApplyError
  | UndefinedStateError (s : RideState)
  | InvalidTransitionError (e : RideEventType) (s : RideState)
deriving DecidableEq, Repr

/-- Is an `Apply` result the "event not valid from state" error? -/
def isInvalidTransitionErr : Option ApplyError → Bool
  | some (.InvalidTransitionError _ _) => true
  | _ => false

/-- `FSM` from producer/main.go: holds the current state. -/
structure FSM where
  State : RideState
deriving DecidableEq, Repr

/-- `FSM.Apply` from producer/main.go. Go mutates the receiver and returns
`error`; here the returned pair is (error, resulting FSM): on either error
path the FSM is returned unchanged, on success the state is the resolved
next state. -/
def FSM.Apply (f : FSM) (event : RideEventType) : Option ApplyError × FSM :=
  match transitions f.State with
  | none => (some (.UndefinedStateError f.State), f)
  | some valid =>
      match valid event with
      | none => (some (.InvalidTransitionError event f.State), f)
      | some newState => (none, ⟨newState⟩)

/-- `FSM.IsTerminal` from producer/main.go. -/
def FSM.IsTerminal (f : FSM) : Bool :=
  f.State = RideState.StateCompleted || f.State = RideState.StateCancelled

/-- `FSM.IsCancelable` from producer/main.go. -/
def FSM.IsCancelable (f : FSM) : Bool :=
  f.State = RideState.StateRequested || f.State = RideState.StateAccepted

/-- The transition table of spec §3, written from the spec's words as a
list of (current state, event, next state) rows, to be compared with the
source-derived `transitions`. -/
def specTransitionTable : List (RideState × RideEventType × RideState) :=
  [(.StateRequested, .EventRideAccepted, .StateAccepted),
   (.StateRequested, .EventTripCancelled, .StateCancelled),
   (.StateAccepted, .EventTripStarted, .StateInProgress),
   (.StateAccepted, .EventTripCancelled, .StateCancelled),
   (.StateInProgress, .EventTripCompleted, .StateCompleted),
   (.StateInProgress, .EventTripCancelled, .StateCancelled)]

/-- Lookup in the spec §3 table: the next state the table maps (S, E) to,
if (S, E) is a key of the table. -/
def specLookup (s : RideState) (e : RideEventType) : Option RideState :=
  (specTransitionTable.find? fun t => t.1 == s && t.2.1 == e).map (·.2.2)

/-- Does the pair (event, state) appear in the source transition table as an
(event, next-state) result, for some current state? -/
def isTransitionResult (e : RideEventType) (s : RideState) : Bool :=
  [RideState.StateNew, .StateRequested, .StateAccepted,
   .StateInProgress, .StateCompleted, .StateCancelled].any fun s0 =>
    match transitions s0 with
    | none => false
    | some valid => valid e == some s

/-- `math.Round` on the ℚ model of float64: round half away from zero. -/
def goRound (q : ℚ) : ℚ :=
  if q < 0 then ((⌈q - 1/2⌉ : ℤ) : ℚ) else ((⌊q + 1/2⌋ : ℤ) : ℚ)

/-- `generateFare` from producer/main.go: base fare $2.50 plus $1.00 per km,
rounded to two decimal places. -/
def generateFare (distance : ℚ) : ℚ :=
  let baseFare : ℚ := 5/2
  let perKmRate : ℚ := 1
  goRound ((baseFare + perKmRate * distance) * 100) / 100

/-- `RideRequestedPayload` from events/types.go. -/
structure RideRequestedPayload where
  Passenger : String
  PickupLocation : String
  DropoffLocation : String
deriving DecidableEq, Repr

/-- `RideAcceptedPayload` from events/types.go. -/
structure RideAcceptedPayload where
  DriverID : String
deriving DecidableEq, Repr

/-- `RideStartedPayload` from events/types.go; `time.Time` modelled as Nat
(the zero value of `time.Time` is 0). -/
structure RideStartedPayload where
  StartTime : Nat
deriving DecidableEq, Repr

/-- `RideCompletedPayload` from events/types.go. -/
structure RideCompletedPayload where
  EndTime : Nat
  DistanceKM : ℚ
  FareUSD : ℚ
deriving DecidableEq, Repr

/-- `RideCancelledPayload` from events/types.go. -/
structure RideCancelledPayload where
  CancelledBy : String
  Reason : String
deriving DecidableEq, Repr

/-- The `RideEventPayload` marker interface of events/types.go as a closed
sum of its five implementations. -/
inductive RideEventPayload
  | requested (p : RideRequestedPayload)
  | accepted (p : RideAcceptedPayload)
  | started (p : RideStartedPayload)
  | completed (p : RideCompletedPayload)
  | cancelled (p : RideCancelledPayload)
deriving DecidableEq, Repr

/-- The event type a payload variant belongs to (the discriminant Go's
type switch associates with each concrete payload type). -/
def payloadVariantType : RideEventPayload → RideEventType
  | .requested _ => .EventRideRequested
  | .accepted _ => .EventRideAccepted
  | .started _ => .EventTripStarted
  | .completed _ => .EventTripCompleted
  | .cancelled _ => .EventTripCancelled

/-- `RideEvent` from events/types.go. Go's nil-able interface field
`Payload` is an `Option`; Go's `time.Time` a Nat. -/
structure RideEvent where
  ID : String
  TripID : String
  «Type» : RideEventType
  Timestamp : Nat
  State : RideState
  DriverID : String
  RiderID : String
  Payload : Option RideEventPayload
deriving DecidableEq, Repr

/-- `Ride` from producer/main.go. -/
structure Ride where
  TripID : String
  DriverID : String
  PassengerID : String
  FSM : FSM
  UpdatedAt : Nat
deriving DecidableEq, Repr

/-- The effect inputs of one `getNextEvent`/admission call in
producer/main.go, passed explicitly: `time.Now()`, `rand.Float64()`,
`uuid.NewString()`, the two `gofakeit.Street()` draws, and the raw
`gofakeit.Float64Range(2.0, 25.0)` draw. -/
structure GenEnv where
  now : Nat
  randFloat : ℚ
  newUUID : String
  pickup : String
  dropoff : String
  distanceDraw : ℚ

/-- The condition of the randomized-cancellation branch of `getNextEvent`
(producer/main.go line 117): not terminal, uniform draw below 0.1, and
cancelable, in Go's evaluation order. -/
def cancelRoll (env : GenEnv) (ride : Ride) : Bool :=
  !ride.FSM.IsTerminal && decide (env.randFloat < 1/10) && ride.FSM.IsCancelable

/-- The randomized-cancellation branch body of `getNextEvent`
(producer/main.go lines 118–136). Result is ((event, error), ride after):
the Go function returns `(events.RideEvent{}, err)` (here `(none, some err)`)
when `Apply` fails, otherwise the synthesized cancellation event with
state hardcoded to `StateCancelled` and the ride's `UpdatedAt` set to now. -/
def cancelBranch (env : GenEnv) (ride : Ride) : (Option RideEvent × Option ApplyError) × Ride :=
  match FSM.Apply ride.FSM .EventTripCancelled with
  | (some err, _) => ((none, some err), ride)
  | (none, f') =>
      ((some { ID := env.newUUID, TripID := ride.TripID,
               «Type» := .EventTripCancelled, Timestamp := env.now,
               State := .StateCancelled,
               DriverID := ride.DriverID, RiderID := ride.PassengerID,
               Payload := some (.cancelled ⟨"passenger", "no_show"⟩) }, none),
       { ride with FSM := f', UpdatedAt := env.now })

/-- The `switch ride.FSM.State` of `getNextEvent` (producer/main.go lines
142–151): the deterministic next event type; `none` for the default
(terminal or unknown state) branch, which returns an empty event. -/
def nextEventFor : RideState → Option RideEventType
  | .StateRequested => some .EventRideAccepted
  | .StateAccepted => some .EventTripStarted
  | .StateInProgress => some .EventTripCompleted
  | _ => none

/-- The payload `switch next` of `getNextEvent` (producer/main.go lines
160–183); the default branch sets a nil payload. -/
def payloadFor (env : GenEnv) (ride : Ride) : RideEventType → Option RideEventPayload
  | .EventRideRequested =>
      some (.requested ⟨ride.PassengerID, env.pickup, env.dropoff⟩)
  | .EventRideAccepted => some (.accepted ⟨ride.DriverID⟩)
  | .EventTripStarted => some (.started ⟨0⟩)
  | .EventTripCompleted =>
      let distance := goRound (env.distanceDraw * 100) / 100
      some (.completed ⟨env.now, distance, generateFare distance⟩)
  | .EventTripCancelled => none

/-- The normal-advancement part of `getNextEvent` (producer/main.go lines
139–197): pick the deterministic next event, apply it to the FSM, build
the payload and the event with the FSM's resulting state. -/
def normalAdvance (env : GenEnv) (ride : Ride) : (Option RideEvent × Option ApplyError) × Ride :=
  match nextEventFor ride.FSM.State with
  | none => ((none, none), ride)
  | some next =>
      match FSM.Apply ride.FSM next with
      | (some err, _) => ((none, some err), ride)
      | (none, f') =>
          ((some { ID := env.newUUID, TripID := ride.TripID, «Type» := next,
                   Timestamp := env.now, State := f'.State,
                   DriverID := ride.DriverID, RiderID := ride.PassengerID,
                   Payload := payloadFor env ride next }, none),
           { ride with FSM := f', UpdatedAt := env.now })

/-- `getNextEvent` from producer/main.go: randomized cancellation when the
roll succeeds, otherwise normal advancement. Returns ((event, error), ride
after the call); the Go empty event `events.RideEvent{}` is `none`. -/
def getNextEvent (env : GenEnv) (ride : Ride) : (Option RideEvent × Option ApplyError) × Ride :=
  if cancelRoll env ride then cancelBranch env ride else normalAdvance env ride

/-- The admission path of the driver loop (producer/main.go lines 247–255):
a fresh ride in state `Requested` with `UpdatedAt = now`. -/
def admitRide (env : GenEnv) (tripID driverID passengerID : String) : Ride :=
  { TripID := tripID, DriverID := driverID, PassengerID := passengerID,
    FSM := ⟨.StateRequested⟩, UpdatedAt := env.now }

/-- The synthetic seed `RideRequested` event emitted at admission
(producer/main.go lines 257–270). -/
def seedEvent (env : GenEnv) (ride : Ride) : RideEvent :=
  { ID := env.newUUID, TripID := ride.TripID,
    «Type» := .EventRideRequested, Timestamp := ride.UpdatedAt,
    State := .StateRequested,
    DriverID := ride.DriverID, RiderID := ride.PassengerID,
    Payload := some (.requested ⟨ride.PassengerID, env.pickup, env.dropoff⟩) }

/-- One iteration of the advancement loop body (producer/main.go lines
283–309) for one ride. Result is (event emitted if any, the ride as kept in
the working set, `none` when deleted): a `getNextEvent` error deletes the
ride; an empty event is skipped (Go's `event.Type == ""` check is the
`none` event, and `event.TripID == ""` is checked here as in the source);
after emitting, a now-terminal ride is deleted. -/
def processRide (env : GenEnv) (ride : Ride) : Option RideEvent × Option Ride :=
  match getNextEvent env ride with
  | ((_, some _), _) => (none, none)
  | ((none, none), r') => (none, some r')
  | ((some evt, none), r') =>
      if evt.TripID = "" then (none, some r')
      else (some evt, if r'.FSM.IsTerminal then none else some r')

/-- The advancement loop of one tick over the working set, modelled as a
list of (trip id, ride) entries in some iteration order (Go map iteration
order is unspecified; entries are pairwise distinct keys). `envf` supplies
each ride's effect inputs. Returns the working set after the tick. -/
def tickAdvance (envf : String → GenEnv) : List (String × Ride) → List (String × Ride)
  | [] => []
  | (tid, r) :: rest =>
      match processRide (envf tid) r with
      | (_, none) => tickAdvance envf rest
      | (_, some r') => (tid, r') :: tickAdvance envf rest

/-- The trip ids visited by the advancement loop in one tick: Go's
`for tripID, ride := range activeRides` visits exactly the entries present
when the loop starts (deletions only affect the current entry). -/
def tickVisits (rides : List (String × Ride)) : List String :=
  rides.map Prod.fst

/-- The JSON value model for the event envelope: `time` stands for an
RFC3339 timestamp string (Go marshals `time.Time` so), `num` for a JSON
number (float64 modelled as ℚ). -/
inductive Json
  | null
  | str (s : String)
  | num (q : ℚ)
  | time (t : Nat)
  | obj (fields : List (String × Json))

/-- First-match field lookup in a JSON object (our marshaller emits
pairwise-distinct keys). -/
def lookupField : List (String × Json) → String → Option Json
  | [], _ => none
  | (k, v) :: rest, key => if k = key then some v else lookupField rest key

/-- `encoding/json` marshalling of each payload variant per its struct
tags in events/types.go; `reason` carries `omitempty`. -/
def marshalPayload : RideEventPayload → Json
  | .requested p => .obj [("passenger", .str p.Passenger),
      ("pickup_location", .str p.PickupLocation),
      ("dropoff_location", .str p.DropoffLocation)]
  | .accepted p => .obj [("driver_id", .str p.DriverID)]
  | .started p => .obj [("start_time", .time p.StartTime)]
  | .completed p => .obj [("end_time", .time p.EndTime),
      ("distance_km", .num p.DistanceKM), ("fare_usd", .num p.FareUSD)]
  | .cancelled p => .obj (("cancelled_by", .str p.CancelledBy) ::
      (if p.Reason = "" then [] else [("reason", .str p.Reason)]))

/-- `encoding/json` marshalling of `RideEvent` per its struct tags in
events/types.go; `driver_id`, `rider_id` and `payload` carry `omitempty`. -/
def marshalRideEvent (e : RideEvent) : Json :=
  .obj ([("id", .str e.ID), ("trip_id", .str e.TripID),
         ("type", .str (eventTypeStr e.«Type»)),
         ("timestamp", .time e.Timestamp),
         ("state", .str (rideStateStr e.State))]
    ++ (if e.DriverID = "" then [] else [("driver_id", .str e.DriverID)])
    ++ (if e.RiderID = "" then [] else [("rider_id", .str e.RiderID)])
    ++ (match e.Payload with
        | none => []
        | some p => [("payload", marshalPayload p)]))

/-- `encoding/json` decoding of a string struct field: a missing field or
JSON null leaves the zero value ""; a non-string value is an error. -/
def getStrField (fs : List (String × Json)) (k : String) : Option String :=
  match lookupField fs k with
  | none => some ""
  | some (.str s) => some s
  | some .null => some ""
  | some _ => none

/-- `encoding/json` decoding of a `time.Time` struct field (zero value 0). -/
def getTimeField (fs : List (String × Json)) (k : String) : Option Nat :=
  match lookupField fs k with
  | none => some 0
  | some (.time t) => some t
  | some .null => some 0
  | some _ => none

/-- `encoding/json` decoding of a float64 struct field (zero value 0). -/
def getNumField (fs : List (String × Json)) (k : String) : Option ℚ :=
  match lookupField fs k with
  | none => some 0
  | some (.num q) => some q
  | some .null => some 0
  | some _ => none

/-- `json.Unmarshal` into `RideRequestedPayload`. -/
def decodeRequestedPayload : Json → Option RideRequestedPayload
  | .null => some ⟨"", "", ""⟩
  | .obj fs =>
      match getStrField fs "passenger", getStrField fs "pickup_location",
            getStrField fs "dropoff_location" with
      | some a, some b, some c => some ⟨a, b, c⟩
      | _, _, _ => none
  | _ => none

/-- `json.Unmarshal` into `RideAcceptedPayload`. -/
def decodeAcceptedPayload : Json → Option RideAcceptedPayload
  | .null => some ⟨""⟩
  | .obj fs =>
      match getStrField fs "driver_id" with
      | some d => some ⟨d⟩
      | none => none
  | _ => none

/-- `json.Unmarshal` into `RideStartedPayload`. -/
def decodeStartedPayload : Json → Option RideStartedPayload
  | .null => some ⟨0⟩
  | .obj fs =>
      match getTimeField fs "start_time" with
      | some t => some ⟨t⟩
      | none => none
  | _ => none

/-- `json.Unmarshal` into `RideCompletedPayload`. -/
def decodeCompletedPayload : Json → Option RideCompletedPayload
  | .null => some ⟨0, 0, 0⟩
  | .obj fs =>
      match getTimeField fs "end_time", getNumField fs "distance_km",
            getNumField fs "fare_usd" with
      | some t, some d, some f => some ⟨t, d, f⟩
      | _, _, _ => none
  | _ => none

/-- `json.Unmarshal` into `RideCancelledPayload`. -/
def decodeCancelledPayload : Json → Option RideCancelledPayload
  | .null => some ⟨"", ""⟩
  | .obj fs =>
      match getStrField fs "cancelled_by", getStrField fs "reason" with
      | some c, some r => some ⟨c, r⟩
      | _, _ => none
  | _ => none

/-- The aux value of `RideEvent.UnmarshalJSON` (events/types.go lines
90–100): the envelope's plain fields plus the raw payload bytes
(`json.RawMessage`; `none` when the payload field is absent, in which
case the RawMessage stays nil). Go's string-typed `Type` is kept as the
raw string here since it may hold an unrecognized value. -/
structure EnvelopeAux where
  ID : String
  TripID : String
  TypeStr : String
  Timestamp : Nat
  StateStr : String
  DriverID : String
  RiderID : String
  PayloadRaw : Option Json

/-- The `json.Unmarshal(data, &aux)` step of `RideEvent.UnmarshalJSON`. -/
def decodeEnvelope : Json → Option EnvelopeAux
  | .obj fs =>
      match getStrField fs "id", getStrField fs "trip_id",
            getStrField fs "type", getTimeField fs "timestamp",
            getStrField fs "state", getStrField fs "driver_id",
            getStrField fs "rider_id" with
      | some id, some trip, some ty, some ts, some st, some did, some rid =>
          some ⟨id, trip, ty, ts, st, did, rid, lookupField fs "payload"⟩
      | _, _, _, _, _, _, _ => none
  | _ => none

/-- The comparisons of Go's `switch e.«Type»` against the five event-type
constants (events/types.go lines 102–136). -/
def parseEventType (s : String) : Option RideEventType :=
  if s = "REQUESTED" then some .EventRideRequested
  else if s = "ACCEPTED" then some .EventRideAccepted
  else if s = "STARTED" then some .EventTripStarted
  else if s = "COMPLETED" then some .EventTripCompleted
  else if s = "CANCELLED" then some .EventTripCancelled
  else none

/-- The `RideEvent` value produced by `UnmarshalJSON`: same fields, with
the string-typed `Type`/`State` kept raw (they may hold unrecognized
values) and the decoded payload. -/
structure RideEventRaw where
  ID : String
  TripID : String
  TypeStr : String
  Timestamp : Nat
  StateStr : String
  DriverID : String
  RiderID : String
  Payload : Option RideEventPayload

/-- Assemble the unmarshalled event from the aux fields and the decoded
payload. -/
def mkRawEvent (aux : EnvelopeAux) (p : Option RideEventPayload) : RideEventRaw :=
  ⟨aux.ID, aux.TripID, aux.TypeStr, aux.Timestamp, aux.StateStr,
   aux.DriverID, aux.RiderID, p⟩

/-- `RideEvent.UnmarshalJSON` from events/types.go: decode the envelope,
then switch on the event type to decode the raw payload bytes into the
matching variant; an unrecognized type leaves the payload nil. A
recognized type with absent payload bytes is an error (Go's
`json.Unmarshal` on a nil `RawMessage` fails). -/
def RideEvent.UnmarshalJSON (j : Json) : Option RideEventRaw :=
  match decodeEnvelope j with
  | none => none
  | some aux =>
      match parseEventType aux.TypeStr with
      | some .EventRideRequested =>
          match aux.PayloadRaw with
          | none => none
          | some pj => (decodeRequestedPayload pj).map fun p =>
              mkRawEvent aux (some (.requested p))
      | some .EventRideAccepted =>
          match aux.PayloadRaw with
          | none => none
          | some pj => (decodeAcceptedPayload pj).map fun p =>
              mkRawEvent aux (some (.accepted p))
      | some .EventTripStarted =>
          match aux.PayloadRaw with
          | none => none
          | some pj => (decodeStartedPayload pj).map fun p =>
              mkRawEvent aux (some (.started p))
      | some .EventTripCompleted =>
          match aux.PayloadRaw with
          | none => none
          | some pj => (decodeCompletedPayload pj).map fun p =>
              mkRawEvent aux (some (.completed p))
      | some .EventTripCancelled =>
          match aux.PayloadRaw with
          | none => none
          | some pj => (decodeCancelledPayload pj).map fun p =>
              mkRawEvent aux (some (.cancelled p))
      | none => some (mkRawEvent aux none)

/-- One row of the `ride_events` table (consumer init SQL). -/
structure DBRow where
  id : String
  trip_id : String
  event_type : String
  event_state : String
  event_time : Nat
  driver_id : String
  passenger_id : String
  payload : Json

/-- `json.Marshal(e.Payload)` in `InsertRideEvent`: a nil payload marshals
to JSON null. -/
def marshalPayloadOpt : Option RideEventPayload → Json
  | none => .null
  | some p => marshalPayload p

/-- The row the `INSERT INTO ride_events` statement binds from the event. -/
def rowOfEvent (e : RideEvent) : DBRow :=
  ⟨e.ID, e.TripID, eventTypeStr e.«Type», rideStateStr e.State, e.Timestamp,
   e.DriverID, e.RiderID, marshalPayloadOpt e.Payload⟩

/-- Does the table already hold a row with this (trip_id, event_type) key? -/
def hasKey (table : List DBRow) (trip ty : String) : Bool :=
  table.any fun r => r.trip_id == trip && r.event_type == ty

/-- `InsertRideEvent` from rides_db: executes
`INSERT INTO ride_events ... ON CONFLICT (trip_id, event_type) DO NOTHING`
against the `ride_events` table with its `UNIQUE (trip_id, event_type)`
constraint. The table is the explicit state; a conflicting insert leaves
it unchanged and the statement still succeeds (no error). -/
def InsertRideEvent (table : List DBRow) (e : RideEvent) : List DBRow :=
  if hasKey table e.TripID (eventTypeStr e.«Type») then table
  else table ++ [rowOfEvent e]

/-- The number of rows holding a given (trip_id, event_type) key. -/
def countKey (table : List DBRow) (trip ty : String) : Nat :=
  (table.filter fun r => r.trip_id == trip && r.event_type == ty).length

/-- C1: for every state S and event type E, `Apply` on an FSM in state S
succeeds iff (S, E) is a key of the §3 transition table, and on success the
FSM's new state is exactly the next state the table maps (S, E) to (on
failure the state is unchanged, so the resulting state is the table value
when present and S otherwise). -/
theorem apply_agrees_with_spec_table (s : RideState) (e : RideEventType) :
    ((FSM.Apply ⟨s⟩ e).fst = none ↔ (specLookup s e).isSome = true)
    ∧ (FSM.Apply ⟨s⟩ e).snd.State = (specLookup s e).getD s := by
  cases s <;> cases e <;> decide

/-- C2 counterexample: a ride in `Accepted` moves to `Cancelled` via
`TripCancelled`, and a subsequent `Apply` does fail — but with the
undefined-state error ("no transitions defined for state CANCELLED"), not
the invalid-transition error the claim names: terminal states have no
entry in the outer transition map at all. -/
theorem terminal_apply_error_kind_cex :
    FSM.Apply ⟨.StateAccepted⟩ .EventTripCancelled = (none, ⟨.StateCancelled⟩)
    ∧ (FSM.Apply ⟨.StateCancelled⟩ .EventRideAccepted).fst =
        some (.UndefinedStateError .StateCancelled)
    ∧ isInvalidTransitionErr (FSM.Apply ⟨.StateCancelled⟩ .EventRideAccepted).fst
        = false := by
  decide

/-- C2 amended: from any terminal state (Completed or Cancelled), `Apply`
with any event type fails — with the undefined-state error, since terminal
states have no transition-table entry — and leaves the FSM unchanged, so
after reaching `Cancelled` the state stays `Cancelled`. -/
theorem terminal_apply_always_fails (f : FSM) (e : RideEventType)
    (h : f.IsTerminal = true) :
    (FSM.Apply f e).fst = some (.UndefinedStateError f.State)
    ∧ (FSM.Apply f e).snd = f := by
  obtain ⟨s⟩ := f
  cases s <;> simp [FSM.IsTerminal] at h <;> cases e <;> decide

/-- Witness for C2 amended: the FSM at `Cancelled` is terminal, and
applying `TripStarted` there fails with the undefined-state error, leaving
the state `Cancelled`. -/
theorem terminal_apply_always_fails_witness :
    FSM.IsTerminal ⟨.StateCancelled⟩ = true
    ∧ ((FSM.Apply ⟨.StateCancelled⟩ .EventTripStarted).fst =
         some (.UndefinedStateError .StateCancelled)
       ∧ (FSM.Apply ⟨.StateCancelled⟩ .EventTripStarted).snd = ⟨.StateCancelled⟩) :=
  ⟨by decide, terminal_apply_always_fails ⟨.StateCancelled⟩ .EventTripStarted (by decide)⟩

/-- C9: for every distance d, `generateFare` returns
round((2.50 + 1.00·d)·100)/100; in particular generateFare 10.0 = 12.50
and generateFare 0.0 = 2.50. -/
theorem generateFare_formula (d : ℚ) :
    generateFare d = goRound ((5/2 + 1 * d) * 100) / 100
    ∧ generateFare 10 = 12.50 ∧ generateFare 0 = 2.50 := by
  refine ⟨rfl, ?_, ?_⟩ <;> norm_num [generateFare, goRound]

/-- C10: whenever `Apply` returns an error — the undefined-state error or
the invalid-transition error — the FSM is unchanged: state mutates only on
the success path. -/
theorem apply_error_preserves_state (f : FSM) (e : RideEventType)
    (err : ApplyError) (h : (FSM.Apply f e).fst = some err) :
    (FSM.Apply f e).snd = f := by
  obtain ⟨s⟩ := f
  cases s <;> cases e <;> first
    | rfl
    | (exfalso; simp [FSM.Apply, transitions] at h)

/-- Witness for C10: applying `TripStarted` in `Requested` fails with the
invalid-transition error and leaves the state `Requested`. -/
theorem apply_error_preserves_state_witness :
    (FSM.Apply ⟨.StateRequested⟩ .EventTripStarted).fst =
      some (.InvalidTransitionError .EventTripStarted .StateRequested)
    ∧ (FSM.Apply ⟨.StateRequested⟩ .EventTripStarted).snd = ⟨.StateRequested⟩ :=
  ⟨by decide,
   apply_error_preserves_state ⟨.StateRequested⟩ .EventTripStarted
     (.InvalidTransitionError .EventTripStarted .StateRequested) (by decide)⟩

/-- C5: the forced-cancellation branch of `getNextEvent` is taken exactly
when the FSM is not terminal, the uniform draw is below 0.10, and the state
is cancelable; in that case `TripCancelled` is applied to the FSM, the
emitted event has type `TripCancelled`, state `Cancelled` and payload
CancelledBy "passenger" / Reason "no_show", `UpdatedAt` is set to now, and
normal advancement is skipped (the result is exactly the cancellation
result). A ride in `InProgress` never takes this branch. -/
theorem randomized_cancellation_branch (env : GenEnv) (ride : Ride) :
    (cancelRoll env ride = true ↔
      (ride.FSM.IsTerminal = false ∧ env.randFloat < 1/10
        ∧ ride.FSM.IsCancelable = true))
    ∧ (cancelRoll env ride = true →
        getNextEvent env ride =
          ((some { ID := env.newUUID, TripID := ride.TripID,
                   «Type» := .EventTripCancelled, Timestamp := env.now,
                   State := .StateCancelled,
                   DriverID := ride.DriverID, RiderID := ride.PassengerID,
                   Payload := some (.cancelled ⟨"passenger", "no_show"⟩) }, none),
           { ride with FSM := ⟨.StateCancelled⟩, UpdatedAt := env.now }))
    ∧ (cancelRoll env ride = false → getNextEvent env ride = normalAdvance env ride)
    ∧ (ride.FSM.State = .StateInProgress → cancelRoll env ride = false) := by
  obtain ⟨tid, did, pid, ⟨st⟩, upd⟩ := ride
  refine ⟨?_, ?_, ?_, ?_⟩
  · simp [cancelRoll, Bool.and_eq_true, Bool.not_eq_true', decide_eq_true_eq,
      and_assoc]
  · intro h
    have hcanc : FSM.IsCancelable ⟨st⟩ = true := by
      simp [cancelRoll, Bool.and_eq_true] at h
      exact h.2
    unfold getNextEvent
    rw [if_pos h]
    cases st <;> simp [FSM.IsCancelable] at hcanc <;>
      simp [cancelBranch, FSM.Apply, transitions]
  · intro h
    unfold getNextEvent
    rw [if_neg (by simp [h])]
  · intro h
    simp only [h] at *
    simp [cancelRoll, FSM.IsCancelable, h]

/-- Witness for C5: with draw 0 < 0.10 and a ride in `Requested`, the roll
succeeds and `getNextEvent` returns exactly the cancellation event and the
cancelled ride. -/
theorem randomized_cancellation_branch_witness :
    cancelRoll ⟨5, 0, "u", "p", "d", 10⟩ ⟨"t", "dr", "pa", ⟨.StateRequested⟩, 0⟩ = true
    ∧ getNextEvent ⟨5, 0, "u", "p", "d", 10⟩ ⟨"t", "dr", "pa", ⟨.StateRequested⟩, 0⟩ =
        ((some ⟨"u", "t", .EventTripCancelled, 5, .StateCancelled, "dr", "pa",
            some (.cancelled ⟨"passenger", "no_show"⟩)⟩, none),
         ⟨"t", "dr", "pa", ⟨.StateCancelled⟩, 5⟩) :=
  have h : cancelRoll ⟨5, 0, "u", "p", "d", 10⟩
      ⟨"t", "dr", "pa", ⟨.StateRequested⟩, 0⟩ = true := by
    simp [cancelRoll, FSM.IsTerminal, FSM.IsCancelable]
  ⟨h, (randomized_cancellation_branch ⟨5, 0, "u", "p", "d", 10⟩
        ⟨"t", "dr", "pa", ⟨.StateRequested⟩, 0⟩).2.1 h⟩

/-- C3: every event `getNextEvent` returns (randomized cancellation or
normal advancement) has a (type, state) pair appearing in the transition
table as an (event, next-state) result; the admission-path seed event is
the synthetic `RideRequested` event with state `Requested`. -/
theorem emitted_event_pairs_valid (env : GenEnv) (ride ride' : Ride)
    (evt : RideEvent) (err : Option ApplyError)
    (h : getNextEvent env ride = ((some evt, err), ride')) :
    isTransitionResult evt.«Type» evt.State = true
    ∧ (seedEvent env ride).«Type» = .EventRideRequested
    ∧ (seedEvent env ride).State = .StateRequested := by
  refine ⟨?_, rfl, rfl⟩
  obtain ⟨tid, did, pid, ⟨st⟩, upd⟩ := ride
  by_cases hc : cancelRoll env ⟨tid, did, pid, ⟨st⟩, upd⟩ = true
  · rw [getNextEvent, if_pos hc] at h
    cases st <;>
      simp [cancelBranch, FSM.Apply, transitions, Prod.ext_iff] at h <;>
      obtain ⟨⟨h1, h2⟩, h3⟩ := h <;> rw [← h1] <;> rfl
  · rw [getNextEvent, if_neg hc] at h
    cases st <;>
      simp [normalAdvance, nextEventFor, FSM.Apply, transitions, payloadFor,
        Prod.ext_iff] at h <;>
      obtain ⟨⟨h1, h2⟩, h3⟩ := h <;> rw [← h1] <;> rfl

/-- Witness for C3: with draw 1 (≥ 0.10) and a ride in `Requested`,
`getNextEvent` emits the `RideAccepted` event with state `Accepted`, whose
pair is a transition-table result, and the seed event is the synthetic
`RideRequested`/`Requested` one. -/
theorem emitted_event_pairs_valid_witness :
    getNextEvent ⟨5, 1, "u", "p", "d", 10⟩ ⟨"t", "dr", "pa", ⟨.StateRequested⟩, 0⟩ =
      ((some ⟨"u", "t", .EventRideAccepted, 5, .StateAccepted, "dr", "pa",
          some (.accepted ⟨"dr"⟩)⟩, none),
       ⟨"t", "dr", "pa", ⟨.StateAccepted⟩, 5⟩)
    ∧ (isTransitionResult RideEventType.EventRideAccepted RideState.StateAccepted = true
       ∧ (seedEvent ⟨5, 1, "u", "p", "d", 10⟩
            ⟨"t", "dr", "pa", ⟨.StateRequested⟩, 0⟩).«Type» = .EventRideRequested
       ∧ (seedEvent ⟨5, 1, "u", "p", "d", 10⟩
            ⟨"t", "dr", "pa", ⟨.StateRequested⟩, 0⟩).State = .StateRequested) :=
  have h : getNextEvent ⟨5, 1, "u", "p", "d", 10⟩
      ⟨"t", "dr", "pa", ⟨.StateRequested⟩, 0⟩ =
      ((some ⟨"u", "t", .EventRideAccepted, 5, .StateAccepted, "dr", "pa",
          some (.accepted ⟨"dr"⟩)⟩, none),
       ⟨"t", "dr", "pa", ⟨.StateAccepted⟩, 5⟩) := by
    rw [getNextEvent, if_neg (by norm_num [cancelRoll, FSM.IsTerminal, FSM.IsCancelable])]
    simp [normalAdvance, nextEventFor, FSM.Apply, transitions, payloadFor]
  ⟨h, emitted_event_pairs_valid ⟨5, 1, "u", "p", "d", 10⟩
        ⟨"t", "dr", "pa", ⟨.StateRequested⟩, 0⟩ _ _ _ h⟩

/-- `getNextEvent` copies the ride's trip id into every event it emits. -/
theorem getNextEvent_tripID (env : GenEnv) (ride ride' : Ride) (evt : RideEvent)
    (err : Option ApplyError)
    (h : getNextEvent env ride = ((some evt, err), ride')) :
    evt.TripID = ride.TripID := by
  obtain ⟨tid, did, pid, ⟨st⟩, upd⟩ := ride
  by_cases hc : cancelRoll env ⟨tid, did, pid, ⟨st⟩, upd⟩ = true
  · rw [getNextEvent, if_pos hc] at h
    cases st <;>
      simp [cancelBranch, FSM.Apply, transitions, Prod.ext_iff] at h <;>
      obtain ⟨⟨h1, h2⟩, h3⟩ := h <;> rw [← h1]
  · rw [getNextEvent, if_neg hc] at h
    cases st <;>
      simp [normalAdvance, nextEventFor, FSM.Apply, transitions, payloadFor,
        Prod.ext_iff] at h <;>
      obtain ⟨⟨h1, h2⟩, h3⟩ := h <;> rw [← h1]

/-- When `getNextEvent` returns the empty event and no error (terminal or
unknown state), it leaves the ride untouched. -/
theorem getNextEvent_empty_unchanged (env : GenEnv) (ride ride' : Ride)
    (h : getNextEvent env ride = ((none, none), ride')) : ride' = ride := by
  obtain ⟨tid, did, pid, ⟨st⟩, upd⟩ := ride
  by_cases hc : cancelRoll env ⟨tid, did, pid, ⟨st⟩, upd⟩ = true
  · rw [getNextEvent, if_pos hc] at h
    cases st <;> simp [cancelBranch, FSM.Apply, transitions, Prod.ext_iff] at h
  · rw [getNextEvent, if_neg hc] at h
    cases st <;>
      simp [normalAdvance, nextEventFor, FSM.Apply, transitions, payloadFor,
        Prod.ext_iff] at h <;>
      exact h.symm

/-- The loop body deletes a ride from the working set whenever its
advancement errored or its FSM became terminal during the tick. -/
theorem processRide_removes (env : GenEnv) (ride : Ride)
    (hne : ride.TripID ≠ "")
    (hterm0 : ride.FSM.IsTerminal = false)
    (hgone : ((getNextEvent env ride).1.2).isSome = true
      ∨ ((getNextEvent env ride).2).FSM.IsTerminal = true) :
    (processRide env ride).2 = none := by
  rcases hge : getNextEvent env ride with ⟨⟨evt?, err?⟩, r'⟩
  rw [hge] at hgone
  cases err? with
  | some e => simp [processRide, hge]
  | none =>
    cases evt? with
    | none =>
      have hr' : r' = ride := getNextEvent_empty_unchanged env ride r' hge
      rw [hr'] at hgone
      simp [hterm0] at hgone
    | some evt =>
      have htrip : evt.TripID = ride.TripID :=
        getNextEvent_tripID env ride r' evt none hge
      have hterm' : r'.FSM.IsTerminal = true := by simpa using hgone
      simp [processRide, hge, htrip, hne, hterm']

/-- The advancement loop never adds a key: every key of the post-tick
working set was a key of the pre-tick working set. -/
theorem tickAdvance_keys_subset (envf : String → GenEnv)
    (rides : List (String × Ride)) (tid : String)
    (h : tid ∈ (tickAdvance envf rides).map Prod.fst) :
    tid ∈ rides.map Prod.fst := by
  induction rides with
  | nil => simp [tickAdvance] at h
  | cons hd tl ih =>
    obtain ⟨k, r⟩ := hd
    rw [tickAdvance] at h
    rcases hpr : processRide (envf k) r with ⟨evt?, keep?⟩
    rw [hpr] at h
    cases keep? with
    | none =>
      simp only [List.map_cons, List.mem_cons]
      exact Or.inr (ih h)
    | some r' =>
      simp only [List.map_cons] at h ⊢
      rcases List.mem_cons.mp h with h0 | h1
      · exact List.mem_cons.mpr (Or.inl h0)
      · exact List.mem_cons.mpr (Or.inr (ih h1))

/-- A working-set entry whose loop body deletes it is absent from the
post-tick working set (keys are pairwise distinct, as in a Go map). -/
theorem tickAdvance_removed_not_mem (envf : String → GenEnv)
    (rides : List (String × Ride)) (tid : String) (r : Ride)
    (hnd : (rides.map Prod.fst).Nodup) (hmem : (tid, r) ∈ rides)
    (hrem : (processRide (envf tid) r).2 = none) :
    tid ∉ (tickAdvance envf rides).map Prod.fst := by
  induction rides with
  | nil => simp at hmem
  | cons hd tl ih =>
    obtain ⟨k, r0⟩ := hd
    simp only [List.map_cons, List.nodup_cons] at hnd
    rcases List.mem_cons.mp hmem with heq | htl
    · obtain ⟨hk, hr⟩ := Prod.mk.injEq .. ▸ heq
      subst hk; subst hr
      rw [tickAdvance]
      rcases hpr : processRide (envf tid) r with ⟨evt?, keep?⟩
      rw [hpr] at hrem
      simp only at hrem
      rw [hrem]
      intro hin
      exact hnd.1 (tickAdvance_keys_subset envf tl tid hin)
    · have htid_tl : tid ∈ tl.map Prod.fst := List.mem_map_of_mem Prod.fst htl
      have hk_ne : ¬ (k = tid) := fun h => hnd.1 (h ▸ htid_tl)
      rw [tickAdvance]
      rcases hpr : processRide (envf k) r0 with ⟨evt?, keep?⟩
      cases keep? with
      | none => exact ih hnd.2 htl
      | some r' =>
        simp only [List.map_cons, List.mem_cons]
        rintro (h0 | h1)
        · exact hk_ne h0.symm
        · exact ih hnd.2 htl h1

/-- C4: in one tick of the driver loop, each working-set entry is visited
exactly once (the visit list is the key list, and distinct keys make the
count one); a ride whose advancement errored, or whose FSM became terminal
during the tick — in particular a ride that completed — is removed from the
working set by the end of the tick and, since a later tick visits exactly
the keys of its working set, is never visited in a later tick. -/
theorem tick_visits_once_and_retires (envf : String → GenEnv)
    (rides : List (String × Ride)) (tid : String) (r : Ride)
    (hnd : (rides.map Prod.fst).Nodup) (hmem : (tid, r) ∈ rides)
    (htrip : r.TripID = tid) (hne : tid ≠ "")
    (hterm0 : r.FSM.IsTerminal = false)
    (hgone : ((getNextEvent (envf tid) r).1.2).isSome = true
      ∨ ((getNextEvent (envf tid) r).2).FSM.IsTerminal = true) :
    (tickVisits rides).count tid = 1
    ∧ tid ∉ (tickAdvance envf rides).map Prod.fst
    ∧ tid ∉ tickVisits (tickAdvance envf rides) := by
  have hrem : (processRide (envf tid) r).2 = none :=
    processRide_removes (envf tid) r (htrip ▸ hne) hterm0 hgone
  have hout := tickAdvance_removed_not_mem envf rides tid r hnd hmem hrem
  refine ⟨?_, hout, hout⟩
  exact List.count_eq_one_of_mem hnd (List.mem_map_of_mem Prod.fst hmem)

/-- Witness for C4: a one-ride working set whose ride is `InProgress` and
whose draw (1 ≥ 0.10) forces normal advancement to `Completed`: the ride is
visited once, removed by the end of the tick, and not visited by the next
tick. -/
theorem tick_visits_once_and_retires_witness :
    ((getNextEvent ((fun _ => (⟨5, 1, "u", "p", "d", 10⟩ : GenEnv)) "t")
        ⟨"t", "dr", "pa", ⟨.StateInProgress⟩, 0⟩).2).FSM.IsTerminal = true
    ∧ ((tickVisits [("t", (⟨"t", "dr", "pa", ⟨.StateInProgress⟩, 0⟩ : Ride))]).count "t" = 1
       ∧ "t" ∉ (tickAdvance (fun _ => ⟨5, 1, "u", "p", "d", 10⟩)
            [("t", ⟨"t", "dr", "pa", ⟨.StateInProgress⟩, 0⟩)]).map Prod.fst
       ∧ "t" ∉ tickVisits (tickAdvance (fun _ => ⟨5, 1, "u", "p", "d", 10⟩)
            [("t", ⟨"t", "dr", "pa", ⟨.StateInProgress⟩, 0⟩)])) :=
  have hge : getNextEvent (⟨5, 1, "u", "p", "d", 10⟩ : GenEnv)
      ⟨"t", "dr", "pa", ⟨.StateInProgress⟩, 0⟩ =
      ((some ⟨"u", "t", .EventTripCompleted, 5, .StateCompleted, "dr", "pa",
          some (.completed ⟨5, goRound (10 * 100) / 100,
            generateFare (goRound (10 * 100) / 100)⟩)⟩, none),
       ⟨"t", "dr", "pa", ⟨.StateCompleted⟩, 5⟩) := by
    rw [getNextEvent,
      if_neg (by simp [cancelRoll, FSM.IsTerminal, FSM.IsCancelable])]
    simp [normalAdvance, nextEventFor, FSM.Apply, transitions, payloadFor]
  have hterm : ((getNextEvent (⟨5, 1, "u", "p", "d", 10⟩ : GenEnv)
      ⟨"t", "dr", "pa", ⟨.StateInProgress⟩, 0⟩).2).FSM.IsTerminal = true := by
    rw [hge]; rfl
  ⟨hterm,
   tick_visits_once_and_retires (fun _ => ⟨5, 1, "u", "p", "d", 10⟩)
     [("t", ⟨"t", "dr", "pa", ⟨.StateInProgress⟩, 0⟩)] "t"
     ⟨"t", "dr", "pa", ⟨.StateInProgress⟩, 0⟩
     (by simp) (by simp) rfl (by simp) rfl (Or.inr hterm)⟩

/-- C6: for every event type and every value of its concrete payload
variant, marshalling a `RideEvent` carrying that payload and unmarshalling
the result with `RideEvent.UnmarshalJSON` yields a payload of the same
concrete variant with all fields equal to the original. -/
theorem marshal_unmarshal_payload_roundtrip (e : RideEvent) (p : RideEventPayload)
    (hp : e.Payload = some p) (hv : payloadVariantType p = e.«Type») :
    ∃ raw, RideEvent.UnmarshalJSON (marshalRideEvent e) = some raw
      ∧ raw.Payload = some p := by
  obtain ⟨id, tid, ty, ts, st, did, rid, pay⟩ := e
  simp only at hp hv
  subst hp
  cases p <;> simp only [payloadVariantType] at hv <;> subst hv <;>
    by_cases hdid : did = "" <;> by_cases hrid : rid = "" <;>
    first
      | (rename_i pc
         by_cases hres : pc.Reason = "" <;>
           (simp [marshalRideEvent, marshalPayload, eventTypeStr, hdid, hrid, hres,
              RideEvent.UnmarshalJSON, decodeEnvelope, getStrField, getTimeField,
              getNumField, lookupField, parseEventType, mkRawEvent,
              decodeRequestedPayload, decodeAcceptedPayload, decodeStartedPayload,
              decodeCompletedPayload, decodeCancelledPayload]
            try rw [← hres]))
      | simp [marshalRideEvent, marshalPayload, eventTypeStr, hdid, hrid,
          RideEvent.UnmarshalJSON, decodeEnvelope, getStrField, getTimeField,
          getNumField, lookupField, parseEventType, mkRawEvent,
          decodeRequestedPayload, decodeAcceptedPayload, decodeStartedPayload,
          decodeCompletedPayload, decodeCancelledPayload]

/-- Witness for C6: a cancelled-trip event with an empty `Reason` (so the
`omitempty` branch omits the field) round-trips to the identical payload. -/
theorem marshal_unmarshal_payload_roundtrip_witness :
    ((⟨"i", "t", .EventTripCancelled, 7, .StateCancelled, "dr", "ri",
        some (.cancelled ⟨"passenger", ""⟩)⟩ : RideEvent).Payload =
          some (.cancelled ⟨"passenger", ""⟩)
      ∧ payloadVariantType (.cancelled ⟨"passenger", ""⟩) =
          (⟨"i", "t", .EventTripCancelled, 7, .StateCancelled, "dr", "ri",
            some (.cancelled ⟨"passenger", ""⟩)⟩ : RideEvent).«Type»)
    ∧ ∃ raw, RideEvent.UnmarshalJSON (marshalRideEvent
        ⟨"i", "t", .EventTripCancelled, 7, .StateCancelled, "dr", "ri",
          some (.cancelled ⟨"passenger", ""⟩)⟩) = some raw
        ∧ raw.Payload = some (.cancelled ⟨"passenger", ""⟩) :=
  ⟨⟨rfl, rfl⟩,
   marshal_unmarshal_payload_roundtrip
     ⟨"i", "t", .EventTripCancelled, 7, .StateCancelled, "dr", "ri",
       some (.cancelled ⟨"passenger", ""⟩)⟩
     (.cancelled ⟨"passenger", ""⟩) rfl rfl⟩

/-- C7: whenever `UnmarshalJSON` succeeds on an envelope whose event-type
field is one of the five recognized types, the decoded payload is present
and of the variant matching that type; an envelope whose event type is
unrecognized decodes successfully (the envelope decode does not fail), with
an absent payload. -/
theorem unmarshal_payload_dispatch :
    (∀ (j : Json) (raw : RideEventRaw) (t : RideEventType),
       RideEvent.UnmarshalJSON j = some raw →
       parseEventType raw.TypeStr = some t →
       ∃ p, raw.Payload = some p ∧ payloadVariantType p = t)
    ∧ (∀ (id trip ty : String) (ts : Nat) (st did rid : String) (pj : Json),
       parseEventType ty = none →
       RideEvent.UnmarshalJSON (.obj [("id", .str id), ("trip_id", .str trip),
         ("type", .str ty), ("timestamp", .time ts), ("state", .str st),
         ("driver_id", .str did), ("rider_id", .str rid), ("payload", pj)])
         = some ⟨id, trip, ty, ts, st, did, rid, none⟩) := by
  constructor
  · intro j raw t h ht
    rw [RideEvent.UnmarshalJSON] at h
    cases henv : decodeEnvelope j with
    | none => simp only [henv] at h; exact Option.noConfusion h
    | some aux =>
      simp only [henv] at h
      cases hty : parseEventType aux.TypeStr with
      | none =>
        simp only [hty, Option.some.injEq] at h
        subst h
        simp only [mkRawEvent] at ht
        rw [hty] at ht
        exact absurd ht (by simp)
      | some t' =>
        simp only [hty] at h
        cases t' <;>
          (cases hpr : aux.PayloadRaw with
           | none => simp only [hpr] at h; exact Option.noConfusion h
           | some pj =>
             simp only [hpr, Option.map_eq_some'] at h
             obtain ⟨p0, hdec, hraw⟩ := h
             subst hraw
             simp only [mkRawEvent] at ht ⊢
             rw [hty] at ht
             simp only [Option.some.injEq] at ht
             subst ht
             exact ⟨_, rfl, rfl⟩)
  · intro id trip ty ts st did rid pj hpar
    have henv : decodeEnvelope (.obj [("id", .str id), ("trip_id", .str trip),
        ("type", .str ty), ("timestamp", .time ts), ("state", .str st),
        ("driver_id", .str did), ("rider_id", .str rid), ("payload", pj)])
        = some ⟨id, trip, ty, ts, st, did, rid, some pj⟩ := by
      simp [decodeEnvelope, getStrField, getTimeField, lookupField]
    rw [RideEvent.UnmarshalJSON]
    simp only [henv, hpar]
    rfl

/-- Witness for C7: a concrete envelope with recognized type "ACCEPTED"
decodes to the accepted-payload variant, and a concrete envelope with the
unrecognized type "BOGUS" decodes successfully with an absent payload. -/
theorem unmarshal_payload_dispatch_witness :
    (RideEvent.UnmarshalJSON (.obj [("id", .str "i"), ("trip_id", .str "t"),
        ("type", .str "ACCEPTED"), ("timestamp", .time 7),
        ("state", .str "ACCEPTED"), ("driver_id", .str "dr"),
        ("rider_id", .str "ri"),
        ("payload", .obj [("driver_id", .str "dr")])]) =
        some ⟨"i", "t", "ACCEPTED", 7, "ACCEPTED", "dr", "ri",
          some (.accepted ⟨"dr"⟩)⟩
      ∧ parseEventType "ACCEPTED" = some .EventRideAccepted
      ∧ (∃ p, (some (RideEventPayload.accepted ⟨"dr"⟩) : Option RideEventPayload)
            = some p ∧ payloadVariantType p = .EventRideAccepted))
    ∧ (parseEventType "BOGUS" = none
       ∧ RideEvent.UnmarshalJSON (.obj [("id", .str "i"), ("trip_id", .str "t"),
           ("type", .str "BOGUS"), ("timestamp", .time 7),
           ("state", .str "NEW"), ("driver_id", .str "dr"),
           ("rider_id", .str "ri"), ("payload", .null)])
           = some ⟨"i", "t", "BOGUS", 7, "NEW", "dr", "ri", none⟩) :=
  have h1 : RideEvent.UnmarshalJSON (.obj [("id", .str "i"), ("trip_id", .str "t"),
      ("type", .str "ACCEPTED"), ("timestamp", .time 7),
      ("state", .str "ACCEPTED"), ("driver_id", .str "dr"),
      ("rider_id", .str "ri"),
      ("payload", .obj [("driver_id", .str "dr")])]) =
      some ⟨"i", "t", "ACCEPTED", 7, "ACCEPTED", "dr", "ri",
        some (.accepted ⟨"dr"⟩)⟩ := by
    simp [RideEvent.UnmarshalJSON, decodeEnvelope, getStrField, getTimeField,
      lookupField, parseEventType, decodeAcceptedPayload, mkRawEvent]
  have hb : parseEventType "BOGUS" = none := by simp [parseEventType]
  ⟨⟨h1, by simp [parseEventType],
     unmarshal_payload_dispatch.1 _ _ .EventRideAccepted h1
       (by simp [parseEventType])⟩,
   ⟨hb, unmarshal_payload_dispatch.2 "i" "t" "BOGUS" 7 "NEW" "dr" "ri" .null hb⟩⟩

/-- A table with no row for a key has key-count zero. -/
theorem countKey_eq_zero_of_not_hasKey (table : List DBRow) (trip ty : String)
    (h : hasKey table trip ty = false) : countKey table trip ty = 0 := by
  simp only [hasKey, List.any_eq_false] at h
  simp only [countKey, List.length_eq_zero, List.filter_eq_nil_iff]
  exact h

/-- A table holding a row for a key has positive key-count. -/
theorem countKey_pos_of_hasKey (table : List DBRow) (trip ty : String)
    (h : hasKey table trip ty = true) : 0 < countKey table trip ty := by
  simp only [hasKey, List.any_eq_true] at h
  obtain ⟨r, hr, hp⟩ := h
  simp only [countKey, List.length_pos_iff_ne_nil, ne_eq, List.filter_eq_nil_iff]
  intro hall
  exact absurd hp (by simpa using hall r hr)

/-- C8: on a table satisfying the UNIQUE (trip_id, event_type) invariant
(at most one row for the key), inserting an event and then a second event
with the same (trip_id, event_type) pair leaves exactly one row for that
pair, and the second insert is a no-op: it returns the table unchanged (and
the modelled ON CONFLICT DO NOTHING statement reports no error). -/
theorem insert_ride_event_idempotent (table : List DBRow) (e e' : RideEvent)
    (hk1 : e'.TripID = e.TripID) (hk2 : e'.«Type» = e.«Type»)
    (huniq : countKey table e.TripID (eventTypeStr e.«Type») ≤ 1) :
    countKey (InsertRideEvent (InsertRideEvent table e) e')
        e.TripID (eventTypeStr e.«Type») = 1
    ∧ InsertRideEvent (InsertRideEvent table e) e'
        = InsertRideEvent table e := by
  by_cases h0 : hasKey table e.TripID (eventTypeStr e.«Type») = true
  · have ht1 : InsertRideEvent table e = table := by
      simp [InsertRideEvent, h0]
    have h0' : hasKey table e'.TripID (eventTypeStr e'.«Type») = true := by
      rw [hk1, hk2]; exact h0
    have ht2 : InsertRideEvent table e' = table := by
      simp [InsertRideEvent, h0']
    rw [ht1, ht2]
    have hpos := countKey_pos_of_hasKey table e.TripID (eventTypeStr e.«Type») h0
    exact ⟨by omega, rfl⟩
  · have hfalse : hasKey table e.TripID (eventTypeStr e.«Type») = false := by
      simpa using h0
    have hc0 := countKey_eq_zero_of_not_hasKey table e.TripID
      (eventTypeStr e.«Type») hfalse
    have ht1 : InsertRideEvent table e = table ++ [rowOfEvent e] := by
      simp [InsertRideEvent, hfalse]
    have hkey1 : hasKey (table ++ [rowOfEvent e]) e'.TripID
        (eventTypeStr e'.«Type») = true := by
      rw [hk1, hk2]
      simp [hasKey, rowOfEvent]
    have ht2 : InsertRideEvent (table ++ [rowOfEvent e]) e'
        = table ++ [rowOfEvent e] := by
      simp [InsertRideEvent, hkey1]
    rw [ht1, ht2]
    refine ⟨?_, rfl⟩
    have : countKey (table ++ [rowOfEvent e]) e.TripID (eventTypeStr e.«Type»)
        = countKey table e.TripID (eventTypeStr e.«Type»)
          + countKey [rowOfEvent e] e.TripID (eventTypeStr e.«Type») := by
      simp [countKey, List.filter_append]
    rw [this, hc0]
    simp [countKey, rowOfEvent]

/-- Witness for C8: inserting the same started-trip event twice into the
empty table leaves exactly one row for its (trip_id, event_type) key, the
second insert returning the one-row table unchanged. -/
theorem insert_ride_event_idempotent_witness :
    countKey [] "t" (eventTypeStr .EventTripStarted) ≤ 1
    ∧ (countKey (InsertRideEvent (InsertRideEvent []
          ⟨"i", "t", .EventTripStarted, 3, .StateInProgress, "dr", "ri",
            some (.started ⟨3⟩)⟩)
          ⟨"i2", "t", .EventTripStarted, 4, .StateInProgress, "dr", "ri",
            some (.started ⟨3⟩)⟩) "t" (eventTypeStr .EventTripStarted) = 1
       ∧ InsertRideEvent (InsertRideEvent []
            ⟨"i", "t", .EventTripStarted, 3, .StateInProgress, "dr", "ri",
              some (.started ⟨3⟩)⟩)
            ⟨"i2", "t", .EventTripStarted, 4, .StateInProgress, "dr", "ri",
              some (.started ⟨3⟩)⟩
          = InsertRideEvent []
            ⟨"i", "t", .EventTripStarted, 3, .StateInProgress, "dr", "ri",
              some (.started ⟨3⟩)⟩) :=
  ⟨by simp [countKey],
   insert_ride_event_idempotent []
     ⟨"i", "t", .EventTripStarted, 3, .StateInProgress, "dr", "ri",
       some (.started ⟨3⟩)⟩
     ⟨"i2", "t", .EventTripStarted, 4, .StateInProgress, "dr", "ri",
       some (.started ⟨3⟩)⟩
     rfl rfl (by simp [countKey])⟩

end RideShare
